import Mathlib

/-!
Verification of the scheduling core of a salon booking application.

The definitions below are a shallow embedding of the appointment
scheduling domain: the SQL schema and row-level-security (RLS) policies of
`supabase_schema.sql`, the booking handlers of `Booking.tsx` and
`AdminBookingModal.tsx`, the status-update handler of `Dashboard.tsx`, the
client cancellation flow of `ClientAppointments`, the deletion guards of
`ServiceManagement.tsx` / `ProfessionalManagement.tsx`, and the
notification dedup logic of `NotificationManager`.

Stateful browser/database code is modelled by explicit state passing
(the appointment store is a `List Appointment`); fallible operations
return `Except` or a dedicated outcome type; wall-clock timestamps are
modelled as date plus hour/minute with no timezone component, matching the
timezone-naive business logic of the source.
-/

namespace Scheduling

/-- Appointment status, from the CHECK constraint on `appointments.status`
in `supabase_schema.sql`: one of pending, confirmed, cancelled, completed. -/
inductive Status
  | pending
  | confirmed
  | cancelled
  | completed
deriving DecidableEq, Repr

/-- A calendar date (no time component), as selected in the booking UI. -/
structure Date where
  year : Nat
  month : Nat
  day : Nat
deriving DecidableEq, Repr

/-- A wall-clock timestamp: calendar date plus hour and minute.  The
source combines a selected date with a parsed `HH:MM` string via
`setMinutes(setHours(date, h), m)` and performs no timezone conversion,
so the embedding carries no zone component. -/
structure DateTime where
  date : Date
  hour : Nat
  minute : Nat
deriving DecidableEq, Repr

/-- A salon row (the fields the scheduling core reads). -/
structure Salon where
  id : String
  owner_id : String
deriving DecidableEq, Repr

/-- A service row, from the `services` table. -/
structure Service where
  id : String
  salon_id : String
  name : String
  price : Rat
  duration : Nat
  is_active : Bool
deriving DecidableEq, Repr

/-- A professional row, from the `professionals` table. -/
structure Professional where
  id : String
  salon_id : String
  name : String
  is_active : Bool
deriving DecidableEq, Repr

/-- An appointment row, from the `appointments` table.  `notes` is the
free-text column (the admin insert omits it; the omitted/NULL value is
modelled as the empty string, which is also what the client path inserts
when there is no duration override). -/
structure Appointment where
  id : String
  client_id : String
  salon_id : String
  service_id : String
  professional_id : Option String
  start_time : DateTime
  status : Status
  notes : String
deriving DecidableEq, Repr

/-! ## Row-level security for appointment updates (`supabase_schema.sql`) -/

/-- RLS policy "Clients can update own appointments":
`USING (auth.uid() = client_id) WITH CHECK (auth.uid() = client_id)`. -/
def clientsCanUpdateOwn (uid : String) (apt : Appointment) : Bool :=
  uid = apt.client_id

/-- RLS policy "Admins can update salon appointments":
`EXISTS (SELECT 1 FROM salons WHERE salons.id = appointments.salon_id AND
salons.owner_id = auth.uid())`, with the same expression as `WITH CHECK`. -/
def adminsCanUpdateSalon (uid : String) (salons : List Salon) (apt : Appointment) : Bool :=
  salons.any (fun s => s.id = apt.salon_id && s.owner_id = uid)

/-- An UPDATE on an appointment row passes row-level security iff at least
one of the two UPDATE policies grants it. -/
def rlsCanUpdateAppointment (uid : String) (salons : List Salon) (apt : Appointment) : Bool :=
  clientsCanUpdateOwn uid apt || adminsCanUpdateSalon uid salons apt

/-- A status UPDATE (`.update({ status }).eq('id', id)`) as executed at
the data-access boundary under the RLS policies above.  Postgres
row-level security filters the UPDATE's row set through the policies'
`USING` clauses: a row that matches the id filter and passes a policy is
overwritten, a row the policies reject is simply invisible to the
statement and left untouched, and a missing id matches nothing.  In every
case the statement succeeds — PostgREST reports no error for a 0-row
update, and neither call site (`Dashboard.tsx` `updateAppointmentStatus`,
`ClientAppointments.handleCancel`) chains `.select()`/`.single()` or
inspects an affected-row count — so the boundary's outcome is just the
resulting store, with no error channel at all.  No state-machine check is
applied either: any status value passes once RLS grants. -/
def updateStatusAs (uid : String) (salons : List Salon) (db : List Appointment)
    (id : String) (newStatus : Status) : List Appointment :=
  db.map (fun a =>
    if a.id = id && rlsCanUpdateAppointment uid salons a then
      { a with status := newStatus }
    else a)

/-- The number of rows a status UPDATE actually affects: those matching
the id filter and passing RLS.  Neither call site ever reads it. -/
def updatedRowCount (uid : String) (salons : List Salon) (db : List Appointment)
    (id : String) : Nat :=
  (db.filter (fun a => a.id = id && rlsCanUpdateAppointment uid salons a)).length

/-- `ClientAppointments.handleCancel`:
`.update({ status: 'cancelled' }).eq('id', id).eq('client_id', profile.id)`
under RLS, then — since `error` is null whenever the request itself goes
through, however many rows matched — the success toast.  The outcome is
the resulting store paired with the toast message the user sees. -/
def clientHandleCancel (uid : String) (salons : List Salon) (db : List Appointment)
    (id : String) : List Appointment × String :=
  (db.map (fun a =>
      if a.id = id && a.client_id = uid && rlsCanUpdateAppointment uid salons a then
        { a with status := .cancelled }
      else a),
   "Agendamento cancelado com sucesso")

/-! ## Status updates in the owner dashboard (`Dashboard.tsx`) -/

/-- `Dashboard.tsx` `updateAppointmentStatus(id, status)`: an unconditional
`.update({ status }).eq('id', id)` with no transition validation of any
kind — it does not read the current status and has no notion of an invalid
transition. -/
def updateAppointmentStatus (db : List Appointment) (id : String) (status : Status) :
    List Appointment :=
  db.map (fun a => if a.id = id then { a with status := status } else a)

/-- The status-change buttons the owner dashboard list view renders for an
appointment (`Dashboard.tsx`): a pending appointment gets confirm and
cancel buttons, a confirmed one gets a complete button, terminal states
get none. -/
def adminStatusActions : Status → List Status
  | .pending => [.confirmed, .cancelled]
  | .confirmed => [.completed]
  | .cancelled => []
  | .completed => []

/-- Visibility of the cancel button in the client appointment list
(`ClientAppointments`): shown iff the appointment is pending or
confirmed. -/
def clientCancelShown : Status → Bool
  | .pending => true
  | .confirmed => true
  | .cancelled => false
  | .completed => false

/-- The transition table of spec §4.2, written from the spec's words for
comparison with the code: pending→confirmed, pending→cancelled,
confirmed→cancelled, confirmed→completed, and nothing else. -/
def specTransitionTable : Status → Status → Bool
  | .pending, .confirmed => true
  | .pending, .cancelled => true
  | .confirmed, .cancelled => true
  | .confirmed, .completed => true
  | _, _ => false

/-! ## Slot proposal: the client booking flow (`Booking.tsx`) -/

/-- The fixed candidate time set offered to clients (`Booking.tsx`
`timeSlots`). -/
def timeSlots : List String :=
  ["09:00", "10:00", "11:00", "13:00", "14:00", "15:00", "16:00", "17:00", "18:00"]

/-- `String.prototype.split` on a single separator character, over the
character list of the string. -/
def splitOnChar (sep : Char) : List Char → List (List Char)
  | [] => [[]]
  | c :: cs =>
    if c = sep then [] :: splitOnChar sep cs
    else
      match splitOnChar sep cs with
      | r :: rs => (c :: r) :: rs
      | [] => [[c]]

/-- `parseInt`: read a leading run of decimal digits.  A component with
no leading digit (where JavaScript yields `NaN`) is read as 0; the
booking UI only produces well-formed `HH:MM` strings (a `type="time"`
input or a member of `timeSlots`), which never hit that case. -/
def parseIntChars : List Char → Nat → Nat
  | [], acc => acc
  | c :: cs, acc => if c.isDigit then parseIntChars cs (acc * 10 + (c.toNat - 48)) else acc

/-- `const [hours, minutes] = finalTime.split(':')` followed by
`parseInt` on both components (a missing minutes component reads as 0). -/
def parseTime (t : String) : Nat × Nat :=
  match splitOnChar ':' t.data with
  | h :: m :: _ => (parseIntChars h 0, parseIntChars m 0)
  | [h] => (parseIntChars h 0, 0)
  | [] => (0, 0)

/-- `setMinutes(setHours(selectedDate, hours), minutes)`: keep the
calendar date, set the wall-clock hour and minute.  No timezone
conversion happens anywhere in this pipeline. -/
def combine (d : Date) (hour minute : Nat) : DateTime :=
  { date := d, hour := hour, minute := minute }

/-- What a booking handler run does: inserts a row (and the store after
the insert), returns silently without any message (the bare `return` in
`Booking.tsx` `handleBooking` when service or time is missing), or shows
an error toast (the guard toasts in `AdminBookingModal.tsx`
`handleSubmit`). -/
inductive BookingOutcome
  | created (row : Appointment) (db : List Appointment)
  | silentReturn
  | toastError (msg : String)
deriving DecidableEq, Repr

/-- The notes text the client path stores for a custom duration
(template literal in `Booking.tsx`). -/
def durationNote (customDuration : Nat) : String :=
  "Duração personalizada: " ++ toString customDuration ++ " min"

/-- `Booking.tsx` `handleBooking`:
`finalTime = customTime || selectedTime` (a non-empty custom time wins,
the empty string is falsy); if no service is selected or `finalTime` is
falsy the handler just returns; otherwise the time string is split on
`':'`, combined with the selected date, and a row is inserted with
`status: 'pending'`, `salon_id: selectedService.salon_id || 'default'`
and notes recording the duration override when `customDuration`
differs from the service's nominal duration.  The authenticated user id
and the id the store assigns to the new row are parameters; no existing
appointment is consulted.  `clientBookingRow` is the row the insert
sends; `clientHandleBooking` is the handler around it. -/
def clientBookingRow (userId : String) (svc : Service) (selectedDate : Date)
    (t : String) (customDuration : Nat) (newId : String) : Appointment :=
  { id := newId
    client_id := userId
    salon_id := if svc.salon_id = "" then "default" else svc.salon_id
    service_id := svc.id
    professional_id := none
    start_time := combine selectedDate (parseTime t).1 (parseTime t).2
    status := .pending
    notes := if customDuration ≠ svc.duration then durationNote customDuration else "" }

def clientHandleBooking (userId : String) (selectedService : Option Service)
    (selectedDate : Date) (selectedTime : Option String) (customTime : String)
    (customDuration : Nat) (db : List Appointment) (newId : String) : BookingOutcome :=
  let finalTime := if customTime = "" then selectedTime else some customTime
  match selectedService, finalTime with
  | some svc, some t =>
    if t = "" then .silentReturn
    else
      let row := clientBookingRow userId svc selectedDate t customDuration newId
      .created row (db ++ [row])
  | _, _ => .silentReturn

/-- `AdminBookingModal.tsx` `handleSubmit`: if client, service, date or
time is missing the handler toasts "Preencha todos os campos" and stops;
if the owner has no salon yet it toasts a setup message and stops;
otherwise the time is split on `':'`, combined with the chosen date, and
a row is inserted with `status: 'confirmed'` (the source comment reads
"Admins usually confirm immediately") and no notes.  `adminBookingRow`
is the row the insert sends; `adminHandleSubmit` is the handler. -/
def adminBookingRow (selectedClientId selectedServiceId : String) (d : Date)
    (time : String) (sid : String) (newId : String) : Appointment :=
  { id := newId
    client_id := selectedClientId
    salon_id := sid
    service_id := selectedServiceId
    professional_id := none
    start_time := combine d (parseTime time).1 (parseTime time).2
    status := .confirmed
    notes := "" }

def adminHandleSubmit (selectedClientId selectedServiceId : String) (date : Option Date)
    (time : String) (salonId : Option String) (db : List Appointment) (newId : String) :
    BookingOutcome :=
  match date with
  | none => .toastError "Preencha todos os campos"
  | some d =>
    if selectedClientId = "" ∨ selectedServiceId = "" ∨ time = "" then
      .toastError "Preencha todos os campos"
    else
      match salonId with
      | none => .toastError "Cadastre seu salão primeiro nas configurações"
      | some sid =>
        let row := adminBookingRow selectedClientId selectedServiceId d time sid newId
        .created row (db ++ [row])

/-- A linearisation of wall-clock timestamps onto a minute axis, used
only to state interval overlap between slots (spec §4.3 wording
"[start, start+duration)").  Months are padded to 31 days; the encoding
is strictly monotone in (date, hour, minute), which is all the overlap
statements need. -/
def minutesIndex (dt : DateTime) : Nat :=
  (((dt.date.year * 12 + dt.date.month) * 31 + dt.date.day) * 24 + dt.hour) * 60 + dt.minute

/-- Two half-open slots `[s₁, s₁+d₁)` and `[s₂, s₂+d₂)` overlap. -/
def overlapsSlot (s₁ : DateTime) (d₁ : Nat) (s₂ : DateTime) (d₂ : Nat) : Prop :=
  minutesIndex s₁ < minutesIndex s₂ + d₂ ∧ minutesIndex s₂ < minutesIndex s₁ + d₁

/-! ## Deletion guard (`ServiceManagement.tsx`, `ProfessionalManagement.tsx`) -/

/-- The count of appointments referencing a service
(`.select('id', { count: 'exact' }).eq('service_id', id)`): no filter on
status. -/
def blockingCountService (appts : List Appointment) (serviceId : String) : Nat :=
  (appts.filter (fun a => a.service_id = serviceId)).length

/-- The count of appointments referencing a professional
(`.eq('professional_id', id)`): no filter on status. -/
def blockingCountProfessional (appts : List Appointment) (professionalId : String) : Nat :=
  (appts.filter (fun a => a.professional_id = some professionalId)).length

/-- The deletion guard's refusal, carrying the blocking reference count
that the refusal toast interpolates ("possui {count} agendamento(s)"). -/
inductive DeleteError
  | referentialConflict (count : Nat)
deriving DecidableEq, Repr

/-- `ServiceManagement.tsx` `confirmDelete`: count the appointments
referencing the service (any status); if the count is positive, refuse
with the count and leave the catalog untouched; otherwise delete the
service row (matched by id and salon id). -/
def confirmDeleteService (appts : List Appointment) (services : List Service)
    (deletingId salonId : String) : Except DeleteError (List Service) :=
  let count := blockingCountService appts deletingId
  if count > 0 then
    .error (.referentialConflict count)
  else
    .ok (services.filter (fun s => !(s.id = deletingId && s.salon_id = salonId)))

/-- `ProfessionalManagement.tsx` `confirmDelete`: same guard keyed on
`professional_id`. -/
def confirmDeleteProfessional (appts : List Appointment) (pros : List Professional)
    (deletingId salonId : String) : Except DeleteError (List Professional) :=
  let count := blockingCountProfessional appts deletingId
  if count > 0 then
    .error (.referentialConflict count)
  else
    .ok (pros.filter (fun p => !(p.id = deletingId && p.salon_id = salonId)))

/-- Deactivation of a service: the edit form's `.update(serviceData)` with
`is_active: false`, which consults no appointment count. -/
def deactivateService (services : List Service) (id : String) : List Service :=
  services.map (fun s => if s.id = id then { s with is_active := false } else s)

/-- Deactivation of a professional, identical in shape. -/
def deactivateProfessional (pros : List Professional) (id : String) : List Professional :=
  pros.map (fun p => if p.id = id then { p with is_active := false } else p)

/-! ## Notification dedup (`NotificationManager` in `Dashboard.tsx`) -/

/-- The `lastNotified` record (`Record<string, string[]>`, persisted to
`localStorage` under `glow_notifications`): for each appointment id, the
list of notification kinds already delivered.  Modelled as an association
list; lookup takes the most recent binding, matching object-spread
update semantics. -/
abbrev NotifState : Type := List (String × List String)

/-- `lastNotified[apt.id] || []`. -/
def getNotified (st : NotifState) (id : String) : List String :=
  ((st.find? (fun p => p.1 = id)).map Prod.snd).getD []

/-- `updateNotified(id, type)`: `{...prev, [id]: [...(prev[id] || []), type]}` —
rebind the id to its previous kinds extended with the new kind. -/
def updateNotified (st : NotifState) (id kind : String) : NotifState :=
  (id, getNotified st id ++ [kind]) :: st

/-- A user-visible alert, identified by (appointment id, notification
kind); `sendNotification` fires one browser notification and one toast
per such pair. -/
abbrev Alert : Type := String × String

/-- The query of `checkAppointments`: confirmed appointments whose start
time has not passed (`.eq('status','confirmed').gte('start_time', now)`),
restricted to the salon (admin role) or to the client's own rows. -/
def notifEligible (now : DateTime) (roleIsAdmin : Bool) (salonId userId : String)
    (a : Appointment) : Bool :=
  a.status = Status.confirmed && minutesIndex now ≤ minutesIndex a.start_time &&
    (if roleIsAdmin then a.salon_id = salonId else a.client_id = userId)

/-- `differenceInMinutes(aptTime, now)` on the minute axis. -/
def diffMinutes (a b : DateTime) : Int :=
  (minutesIndex a : Int) - (minutesIndex b : Int)

/-- The alerts one iteration of the `forEach` body emits for one
appointment, reading the `lastNotified` value captured when the run
started (`stale`): a "day" alert when the appointment is today and "day"
is not yet recorded for its id, then a "30min" alert when it starts
within the next 30 minutes and "30min" is not yet recorded. -/
def alertsFor (stale : NotifState) (now : DateTime) (today : Date) (apt : Appointment) :
    List Alert :=
  (if apt.start_time.date = today ∧ "day" ∉ getNotified stale apt.id then
      [(apt.id, "day")]
    else []) ++
  (if diffMinutes apt.start_time now ≤ 30 ∧ 0 < diffMinutes apt.start_time now ∧
      "30min" ∉ getNotified stale apt.id then
      [(apt.id, "30min")]
    else [])

/-- One run of `checkAppointments` over an already-fetched appointment
list: every iteration reads the run-start `lastNotified` (the closure
value), while the functional `setLastNotified` updates accumulate, so the
run returns the concatenated alerts and the state with one
`updateNotified` applied per alert, in emission order. -/
def checkAppointmentsOnce (st : NotifState) (appts : List Appointment)
    (now : DateTime) (today : Date) : List Alert × NotifState :=
  let alerts := appts.flatMap (alertsFor st now today)
  (alerts, alerts.foldl (fun s a => updateNotified s a.1 a.2) st)

/-- `n` successive runs of `checkAppointments` within one mount: the
effect (deps `[userId, salonId]`) registers `setInterval` with the
`checkAppointments` closure of the render in which it ran, and
`setLastNotified` re-renders without re-running the effect, so every
per-minute tick reads the same effect-setup-time ledger `st0`.  The
functional `setLastNotified` updates still accumulate into the
authoritative state `acc` (which is what gets persisted to
`localStorage`), but no tick's read ever sees them. -/
def checkAppointmentsIter (n : Nat) (st0 acc : NotifState) (appts : List Appointment)
    (now : DateTime) (today : Date) : List Alert × NotifState :=
  match n with
  | 0 => ([], acc)
  | n + 1 =>
    let alerts := (checkAppointmentsOnce st0 appts now today).1
    let acc' := alerts.foldl (fun s a => updateNotified s a.1 a.2) acc
    let rest := checkAppointmentsIter n st0 acc' appts now today
    (alerts ++ rest.1, rest.2)

/-! ## Theorems -/

/-- An actor who neither owns the appointment nor the appointment's
salon passes neither UPDATE policy. -/
theorem rls_denies_foreign (uid : String) (salons : List Salon) (apt : Appointment)
    (hclient : uid ≠ apt.client_id)
    (howner : ∀ s ∈ salons, ¬(s.id = apt.salon_id ∧ s.owner_id = uid)) :
    rlsCanUpdateAppointment uid salons apt = false := by
  have hc : clientsCanUpdateOwn uid apt = false := by
    simp [clientsCanUpdateOwn, hclient]
  have ha : adminsCanUpdateSalon uid salons apt = false := by
    unfold adminsCanUpdateSalon
    rw [List.any_eq_false]
    intro s hs
    simpa using howner s hs
  simp [rlsCanUpdateAppointment, hc, ha]

/-- A map that fixes every element of a list is the identity on it. -/
theorem map_eq_self_of_fixes {α : Type} (l : List α) (f : α → α)
    (h : ∀ a ∈ l, f a = a) : l.map f = l := by
  conv_rhs => rw [← List.map_id l]
  exact List.map_congr_left h

/-- C1 counterexample: a foreign actor's transition attempt is not
rejected with any error.  On a concrete store, actor "u9" (neither the
client "c1" nor the owner "owner1" of salon "s1") updating appointment
"a1" leaves the store unchanged with a 0-row silent success; the outcome
is identical to targeting a missing id, so nothing distinguishes the
denial from NotFound; and the client cancel path returns the success
toast while cancelling nothing.  No Forbidden error exists anywhere. -/
theorem foreign_update_not_forbidden :
    updateStatusAs "u9" [{ id := "s1", owner_id := "owner1" }]
      [{ id := "a1", client_id := "c1", salon_id := "s1", service_id := "sv1",
         professional_id := none, start_time := ⟨⟨2024, 6, 10⟩, 14, 0⟩,
         status := .confirmed, notes := "" }] "a1" .cancelled
      = [{ id := "a1", client_id := "c1", salon_id := "s1", service_id := "sv1",
           professional_id := none, start_time := ⟨⟨2024, 6, 10⟩, 14, 0⟩,
           status := .confirmed, notes := "" }] ∧
    updateStatusAs "u9" [{ id := "s1", owner_id := "owner1" }]
      [{ id := "a1", client_id := "c1", salon_id := "s1", service_id := "sv1",
         professional_id := none, start_time := ⟨⟨2024, 6, 10⟩, 14, 0⟩,
         status := .confirmed, notes := "" }] "missing" .cancelled
      = [{ id := "a1", client_id := "c1", salon_id := "s1", service_id := "sv1",
           professional_id := none, start_time := ⟨⟨2024, 6, 10⟩, 14, 0⟩,
           status := .confirmed, notes := "" }] ∧
    clientHandleCancel "u9" [{ id := "s1", owner_id := "owner1" }]
      [{ id := "a1", client_id := "c1", salon_id := "s1", service_id := "sv1",
         professional_id := none, start_time := ⟨⟨2024, 6, 10⟩, 14, 0⟩,
         status := .confirmed, notes := "" }] "a1"
      = ([{ id := "a1", client_id := "c1", salon_id := "s1", service_id := "sv1",
            professional_id := none, start_time := ⟨⟨2024, 6, 10⟩, 14, 0⟩,
            status := .confirmed, notes := "" }],
         "Agendamento cancelado com sucesso") := by
  refine ⟨by decide, by decide, by decide⟩

/-- C1 amended: the write is blocked at the data-access boundary — when
every row bearing the targeted id belongs neither to the actor nor to a
salon the actor owns, the RLS UPDATE policies leave the store unchanged
for every requested target status, valid or not — but the denial is
silent: the statement succeeds with zero affected rows, producing exactly
the store a missing id produces (so nothing distinguishes Forbidden from
NotFound at either call site), and the client cancel path still shows its
success toast. -/
theorem foreign_actor_update_blocked_silently :
    (∀ uid salons db id newStatus,
      (∀ apt ∈ db, apt.id = id → uid ≠ apt.client_id ∧
        ∀ s ∈ salons, ¬(s.id = apt.salon_id ∧ s.owner_id = uid)) →
      updateStatusAs uid salons db id newStatus = db) ∧
    (∀ uid salons db id,
      (∀ apt ∈ db, apt.id = id → uid ≠ apt.client_id ∧
        ∀ s ∈ salons, ¬(s.id = apt.salon_id ∧ s.owner_id = uid)) →
      clientHandleCancel uid salons db id = (db, "Agendamento cancelado com sucesso")) ∧
    (∀ uid salons db id newStatus,
      (∀ apt ∈ db, apt.id ≠ id) →
      updateStatusAs uid salons db id newStatus = db) := by
  refine ⟨?_, ?_, ?_⟩
  · intro uid salons db id newStatus h
    unfold updateStatusAs
    apply map_eq_self_of_fixes
    intro a ha
    by_cases hid : a.id = id
    · obtain ⟨hc, ho⟩ := h a ha hid
      simp [rls_denies_foreign uid salons a hc ho]
    · simp [hid]
  · intro uid salons db id h
    unfold clientHandleCancel
    refine Prod.ext ?_ rfl
    apply map_eq_self_of_fixes
    intro a ha
    by_cases hid : a.id = id
    · obtain ⟨hc, -⟩ := h a ha hid
      have hne : ¬a.client_id = uid := fun he => hc he.symm
      simp [hne]
    · simp [hid]
  · intro uid salons db id newStatus h
    unfold updateStatusAs
    apply map_eq_self_of_fixes
    intro a ha
    simp [h a ha]

/-- C1 amended, witness: the concrete foreign actor's update and cancel
attempts leave the store unchanged, and the missing-id update produces
the same unchanged store. -/
theorem foreign_actor_update_blocked_silently_witness :
    updateStatusAs "u9" [{ id := "s1", owner_id := "owner1" }]
      [{ id := "a1", client_id := "c1", salon_id := "s1", service_id := "sv1",
         professional_id := none, start_time := ⟨⟨2024, 6, 10⟩, 14, 0⟩,
         status := .pending, notes := "" }] "a1" .confirmed
      = [{ id := "a1", client_id := "c1", salon_id := "s1", service_id := "sv1",
           professional_id := none, start_time := ⟨⟨2024, 6, 10⟩, 14, 0⟩,
           status := .pending, notes := "" }] ∧
    clientHandleCancel "u9" [{ id := "s1", owner_id := "owner1" }]
      [{ id := "a1", client_id := "c1", salon_id := "s1", service_id := "sv1",
         professional_id := none, start_time := ⟨⟨2024, 6, 10⟩, 14, 0⟩,
         status := .pending, notes := "" }] "a1"
      = ([{ id := "a1", client_id := "c1", salon_id := "s1", service_id := "sv1",
            professional_id := none, start_time := ⟨⟨2024, 6, 10⟩, 14, 0⟩,
            status := .pending, notes := "" }],
         "Agendamento cancelado com sucesso") ∧
    updateStatusAs "u9" [{ id := "s1", owner_id := "owner1" }]
      [{ id := "a1", client_id := "c1", salon_id := "s1", service_id := "sv1",
         professional_id := none, start_time := ⟨⟨2024, 6, 10⟩, 14, 0⟩,
         status := .pending, notes := "" }] "zzz" .confirmed
      = [{ id := "a1", client_id := "c1", salon_id := "s1", service_id := "sv1",
           professional_id := none, start_time := ⟨⟨2024, 6, 10⟩, 14, 0⟩,
           status := .pending, notes := "" }] :=
  ⟨foreign_actor_update_blocked_silently.1 "u9" [{ id := "s1", owner_id := "owner1" }]
      [{ id := "a1", client_id := "c1", salon_id := "s1", service_id := "sv1",
         professional_id := none, start_time := ⟨⟨2024, 6, 10⟩, 14, 0⟩,
         status := .pending, notes := "" }] "a1" .confirmed (by decide),
   foreign_actor_update_blocked_silently.2.1 "u9" [{ id := "s1", owner_id := "owner1" }]
      [{ id := "a1", client_id := "c1", salon_id := "s1", service_id := "sv1",
         professional_id := none, start_time := ⟨⟨2024, 6, 10⟩, 14, 0⟩,
         status := .pending, notes := "" }] "a1" (by decide),
   foreign_actor_update_blocked_silently.2.2 "u9" [{ id := "s1", owner_id := "owner1" }]
      [{ id := "a1", client_id := "c1", salon_id := "s1", service_id := "sv1",
         professional_id := none, start_time := ⟨⟨2024, 6, 10⟩, 14, 0⟩,
         status := .pending, notes := "" }] "zzz" .confirmed (by decide)⟩

/-- C2 counterexample: `updateAppointmentStatus` performs the write
`completed → confirmed` on a concrete appointment: the status changes and
no error of any kind is produced, contradicting "rejected with an
InvalidTransition error and leaves the appointment's status unchanged"
(no InvalidTransition error exists anywhere in the source). -/
theorem completed_to_confirmed_goes_through :
    updateAppointmentStatus
      [{ id := "a1", client_id := "c1", salon_id := "s1", service_id := "sv1",
         professional_id := none, start_time := ⟨⟨2024, 6, 10⟩, 14, 0⟩,
         status := .completed, notes := "" }] "a1" .confirmed
      = [{ id := "a1", client_id := "c1", salon_id := "s1", service_id := "sv1",
           professional_id := none, start_time := ⟨⟨2024, 6, 10⟩, 14, 0⟩,
           status := .confirmed, notes := "" }] := by
  decide

/-- C2 amended: the transition table is enforced only by which buttons the
UI renders — the owner dashboard offers exactly pending→confirmed,
pending→cancelled and confirmed→completed, and the client list offers
cancellation exactly for pending/confirmed appointments, all of which lie
in the spec's table — while the update function itself validates nothing:
it overwrites the status even of a terminal (completed) appointment and
raises no InvalidTransition error. -/
theorem transitions_enforced_only_in_ui :
    (∀ s t, t ∈ adminStatusActions s → specTransitionTable s t = true) ∧
    (∀ s, clientCancelShown s = true → specTransitionTable s .cancelled = true) ∧
    (∀ (apt : Appointment) (st : Status), apt.status = .completed →
      updateAppointmentStatus [apt] apt.id st = [{ apt with status := st }]) := by
  refine ⟨?_, ?_, ?_⟩
  · intro s t ht
    cases s <;> simp [adminStatusActions] at ht <;>
      rcases ht with rfl | rfl <;> rfl
  · intro s hs
    cases s <;> simp [clientCancelShown] at hs <;> rfl
  · intro apt st _
    simp [updateAppointmentStatus]

/-- C2 amended, witness: the UI-offered transitions pending→confirmed and
confirmed→cancelled are in the table, and the unchecked write fires on a
concrete completed appointment. -/
theorem transitions_enforced_only_in_ui_witness :
    specTransitionTable .pending .confirmed = true ∧
    specTransitionTable .confirmed .cancelled = true ∧
    updateAppointmentStatus
      [{ id := "a2", client_id := "c1", salon_id := "s1", service_id := "sv1",
         professional_id := none, start_time := ⟨⟨2024, 6, 10⟩, 14, 0⟩,
         status := .completed, notes := "" }] "a2" .pending
      = [{ id := "a2", client_id := "c1", salon_id := "s1", service_id := "sv1",
           professional_id := none, start_time := ⟨⟨2024, 6, 10⟩, 14, 0⟩,
           status := .pending, notes := "" }] :=
  ⟨transitions_enforced_only_in_ui.1 .pending .confirmed (by simp [adminStatusActions]),
   transitions_enforced_only_in_ui.2.1 .confirmed (by rfl),
   transitions_enforced_only_in_ui.2.2
     { id := "a2", client_id := "c1", salon_id := "s1", service_id := "sv1",
       professional_id := none, start_time := ⟨⟨2024, 6, 10⟩, 14, 0⟩,
       status := .completed, notes := "" } .pending rfl⟩

/-- C3: the deletion guard counts referencing appointments with no status
filter (the count is invariant under arbitrarily rewriting every
appointment's status); a positive count refuses the physical delete with
a `referentialConflict` carrying exactly that count and leaves the catalog
untouched; a zero count lets the delete proceed; and deactivation flips
`is_active` to false unconditionally — it consults no count.  Both the
service and the professional guard behave this way. -/
theorem deletion_guard_spec :
    (∀ appts services sid salId, 0 < blockingCountService appts sid →
      confirmDeleteService appts services sid salId =
        .error (.referentialConflict (blockingCountService appts sid))) ∧
    (∀ appts services sid salId, blockingCountService appts sid = 0 →
      confirmDeleteService appts services sid salId =
        .ok (services.filter (fun s => !(s.id = sid && s.salon_id = salId)))) ∧
    (∀ appts pros pid salId, 0 < blockingCountProfessional appts pid →
      confirmDeleteProfessional appts pros pid salId =
        .error (.referentialConflict (blockingCountProfessional appts pid))) ∧
    (∀ appts pros pid salId, blockingCountProfessional appts pid = 0 →
      confirmDeleteProfessional appts pros pid salId =
        .ok (pros.filter (fun p => !(p.id = pid && p.salon_id = salId)))) ∧
    (∀ (f : Appointment → Status) appts sid,
      blockingCountService (appts.map (fun a => { a with status := f a })) sid =
        blockingCountService appts sid) ∧
    (∀ (f : Appointment → Status) appts pid,
      blockingCountProfessional (appts.map (fun a => { a with status := f a })) pid =
        blockingCountProfessional appts pid) ∧
    (∀ services sid s, s ∈ deactivateService services sid → s.id = sid →
      s.is_active = false) ∧
    (∀ pros pid p, p ∈ deactivateProfessional pros pid → p.id = pid →
      p.is_active = false) := by
  refine ⟨?_, ?_, ?_, ?_, ?_, ?_, ?_, ?_⟩
  · intro appts services sid salId h
    simp [confirmDeleteService, Nat.pos_iff_ne_zero.mp h]
  · intro appts services sid salId h
    simp [confirmDeleteService, h]
  · intro appts pros pid salId h
    simp [confirmDeleteProfessional, Nat.pos_iff_ne_zero.mp h]
  · intro appts pros pid salId h
    simp [confirmDeleteProfessional, h]
  · intro f appts sid
    induction appts with
    | nil => rfl
    | cons a l ih =>
      unfold blockingCountService at *
      by_cases h : a.service_id = sid <;>
        simp [List.filter_cons, h, ih]
  · intro f appts pid
    induction appts with
    | nil => rfl
    | cons a l ih =>
      unfold blockingCountProfessional at *
      by_cases h : a.professional_id = some pid <;>
        simp [List.filter_cons, h, ih]
  · intro services sid s hs hid
    simp only [deactivateService, List.mem_map] at hs
    obtain ⟨a, _, rfl⟩ := hs
    by_cases h : a.id = sid
    · simp [h]
    · rw [if_neg h] at hid ⊢
      exact absurd hid h
  · intro pros pid p hp hid
    simp only [deactivateProfessional, List.mem_map] at hp
    obtain ⟨a, _, rfl⟩ := hp
    by_cases h : a.id = pid
    · simp [h]
    · rw [if_neg h] at hid ⊢
      exact absurd hid h

/-- C3 witness: with one (completed) appointment referencing service
"sv1" and professional "p1", deleting either is refused with count 1
while deactivating the service succeeds. -/
theorem deletion_guard_spec_witness :
    confirmDeleteService
      [{ id := "a1", client_id := "c1", salon_id := "s1", service_id := "sv1",
         professional_id := some "p1", start_time := ⟨⟨2024, 6, 10⟩, 14, 0⟩,
         status := .completed, notes := "" }]
      [{ id := "sv1", salon_id := "s1", name := "S", price := 50, duration := 30,
         is_active := true }] "sv1" "s1"
      = .error (.referentialConflict 1) ∧
    confirmDeleteProfessional
      [{ id := "a1", client_id := "c1", salon_id := "s1", service_id := "sv1",
         professional_id := some "p1", start_time := ⟨⟨2024, 6, 10⟩, 14, 0⟩,
         status := .completed, notes := "" }]
      [{ id := "p1", salon_id := "s1", name := "P", is_active := true }] "p1" "s1"
      = .error (.referentialConflict 1) ∧
    ({ id := "sv1", salon_id := "s1", name := "S", price := 50, duration := 30,
       is_active := false } : Service).is_active = false :=
  ⟨deletion_guard_spec.1
      [{ id := "a1", client_id := "c1", salon_id := "s1", service_id := "sv1",
         professional_id := some "p1", start_time := ⟨⟨2024, 6, 10⟩, 14, 0⟩,
         status := .completed, notes := "" }]
      [{ id := "sv1", salon_id := "s1", name := "S", price := 50, duration := 30,
         is_active := true }] "sv1" "s1" (by decide),
   deletion_guard_spec.2.2.1
      [{ id := "a1", client_id := "c1", salon_id := "s1", service_id := "sv1",
         professional_id := some "p1", start_time := ⟨⟨2024, 6, 10⟩, 14, 0⟩,
         status := .completed, notes := "" }]
      [{ id := "p1", salon_id := "s1", name := "P", is_active := true }] "p1" "s1" (by decide),
   deletion_guard_spec.2.2.2.2.2.2.1
      [{ id := "sv1", salon_id := "s1", name := "S", price := 50, duration := 30,
         is_active := true }] "sv1"
      { id := "sv1", salon_id := "s1", name := "S", price := 50, duration := 30,
        is_active := false }
      (by decide) rfl⟩

/-- C4: whenever the client booking handler creates an appointment, the
row it persists has status `pending`; whenever the admin booking handler
creates one, the row has status `confirmed`.  Since these equations hold
for every run that reaches the insert, no other initial status is
possible on either path. -/
theorem initial_status_by_path :
    (∀ userId svc d st ct cd db newId row db',
      clientHandleBooking userId svc d st ct cd db newId = .created row db' →
      row.status = .pending) ∧
    (∀ cid sidSvc date time salonId db newId row db',
      adminHandleSubmit cid sidSvc date time salonId db newId = .created row db' →
      row.status = .confirmed) := by
  constructor
  · intro userId svc d st ct cd db newId row db' h
    rcases svc with _ | svc
    · simp [clientHandleBooking] at h
    · by_cases hct : ct = ""
      · subst hct
        rcases st with _ | t
        · simp [clientHandleBooking] at h
        · by_cases ht : t = ""
          · simp [clientHandleBooking, ht] at h
          · simp [clientHandleBooking, ht] at h
            obtain ⟨h1, -⟩ := h
            subst h1
            rfl
      · simp [clientHandleBooking, hct] at h
        obtain ⟨h1, -⟩ := h
        subst h1
        rfl
  · intro cid sidSvc date time salonId db newId row db' h
    unfold adminHandleSubmit at h
    split at h
    · exact absurd h (by simp)
    · split at h
      · exact absurd h (by simp)
      · split at h
        · exact absurd h (by simp)
        · injection h with h1 _
          subst h1
          rfl

/-- C4 witness: a concrete client booking comes out `pending` and a
concrete admin booking comes out `confirmed`. -/
theorem initial_status_by_path_witness :
    (clientBookingRow "c1"
        { id := "sv1", salon_id := "s1", name := "S", price := 50,
          duration := 30, is_active := true }
        ⟨2024, 6, 10⟩ "14:00" 30 "a1").status
      = .pending ∧
    (adminBookingRow "c1" "sv1" ⟨2024, 6, 10⟩ "09:00" "s1" "a2").status = .confirmed :=
  ⟨initial_status_by_path.1 "c1"
      (some { id := "sv1", salon_id := "s1", name := "S", price := 50,
              duration := 30, is_active := true })
      ⟨2024, 6, 10⟩ (some "14:00") "" 30 []
      "a1" _ _ rfl,
   initial_status_by_path.2 "c1" "sv1" (some ⟨2024, 6, 10⟩) "09:00" (some "s1") []
      "a2" _ _ rfl⟩

/-- C5: the candidate time set offered to clients is exactly
{09:00, 10:00, 11:00, 13:00, 14:00, 15:00, 16:00, 17:00, 18:00}; the
persisted start time is the selected calendar date combined with the
parsed hour/minute of the chosen time string, with no timezone component
anywhere in the pipeline; and booking a duration-30 service for
2024-06-10 at "14:00" with no override yields start_time
2024-06-10T14:00, status pending, and empty notes (the duration resolves
to the service's nominal 30, so no override is recorded). -/
theorem fixed_slots_and_wallclock_combine :
    timeSlots = ["09:00", "10:00", "11:00", "13:00", "14:00", "15:00", "16:00", "17:00", "18:00"] ∧
    (∀ d h m, combine d h m = { date := d, hour := h, minute := m }) ∧
    (∀ userId svc d t cd newId,
      (clientBookingRow userId svc d t cd newId).start_time =
        combine d (parseTime t).1 (parseTime t).2) ∧
    clientHandleBooking "client1"
      (some { id := "svcS", salon_id := "salonX", name := "S", price := 50,
              duration := 30, is_active := true })
      ⟨2024, 6, 10⟩ (some "14:00") "" 30 [] "apt1" =
      .created
        { id := "apt1", client_id := "client1", salon_id := "salonX",
          service_id := "svcS", professional_id := none,
          start_time := { date := ⟨2024, 6, 10⟩, hour := 14, minute := 0 },
          status := .pending, notes := "" }
        [{ id := "apt1", client_id := "client1", salon_id := "salonX",
           service_id := "svcS", professional_id := none,
           start_time := { date := ⟨2024, 6, 10⟩, hour := 14, minute := 0 },
           status := .pending, notes := "" }] := by
  refine ⟨rfl, fun d h m => rfl, fun userId svc d t cd newId => rfl, ?_⟩
  decide

/-- C6: neither booking handler consults the existing appointment store —
for any valid proposal the insert succeeds even when the store already
holds a non-cancelled appointment of the same salon whose
[start, start+duration) interval overlaps the requested slot. -/
theorem no_overlap_check :
    (∀ userId svc d st ct cd db newId t a dA,
      (if ct = "" then st else some ct) = some t → t ≠ "" →
      a ∈ db → a.status ≠ .cancelled → a.salon_id = svc.salon_id →
      overlapsSlot a.start_time dA (clientBookingRow userId svc d t cd newId).start_time cd →
      clientHandleBooking userId (some svc) d st ct cd db newId =
        .created (clientBookingRow userId svc d t cd newId)
          (db ++ [clientBookingRow userId svc d t cd newId])) ∧
    (∀ cid sidSvc d time sid db newId a dA dNew,
      cid ≠ "" → sidSvc ≠ "" → time ≠ "" →
      a ∈ db → a.status ≠ .cancelled → a.salon_id = sid →
      overlapsSlot a.start_time dA (adminBookingRow cid sidSvc d time sid newId).start_time dNew →
      adminHandleSubmit cid sidSvc (some d) time (some sid) db newId =
        .created (adminBookingRow cid sidSvc d time sid newId)
          (db ++ [adminBookingRow cid sidSvc d time sid newId])) := by
  constructor
  · intro userId svc d st ct cd db newId t a dA hft ht _ _ _ _
    simp only [clientHandleBooking]
    rw [hft]
    simp [ht]
  · intro cid sidSvc d time sid db newId a dA dNew hc hs htime _ _ _ _
    simp [adminHandleSubmit, hc, hs, htime]

/-- C6 witness: with a confirmed appointment of the same salon at
2024-06-10 14:00 (duration 60) already stored, a client booking of the
overlapping slot 14:30 (duration 30) still succeeds. -/
theorem no_overlap_check_witness :
    clientHandleBooking "c2"
      (some { id := "svcS", salon_id := "salonX", name := "S", price := 50,
              duration := 30, is_active := true })
      ⟨2024, 6, 10⟩ none "14:30" 30
      [{ id := "a1", client_id := "c1", salon_id := "salonX", service_id := "svcS",
         professional_id := none, start_time := ⟨⟨2024, 6, 10⟩, 14, 0⟩,
         status := .confirmed, notes := "" }] "a2" =
      .created
        (clientBookingRow "c2"
          { id := "svcS", salon_id := "salonX", name := "S", price := 50,
            duration := 30, is_active := true }
          ⟨2024, 6, 10⟩ "14:30" 30 "a2")
        ([{ id := "a1", client_id := "c1", salon_id := "salonX", service_id := "svcS",
            professional_id := none, start_time := ⟨⟨2024, 6, 10⟩, 14, 0⟩,
            status := .confirmed, notes := "" }] ++
          [clientBookingRow "c2"
            { id := "svcS", salon_id := "salonX", name := "S", price := 50,
              duration := 30, is_active := true }
            ⟨2024, 6, 10⟩ "14:30" 30 "a2"]) :=
  no_overlap_check.1 "c2"
    { id := "svcS", salon_id := "salonX", name := "S", price := 50,
      duration := 30, is_active := true }
    ⟨2024, 6, 10⟩ none "14:30" 30
    [{ id := "a1", client_id := "c1", salon_id := "salonX", service_id := "svcS",
       professional_id := none, start_time := ⟨⟨2024, 6, 10⟩, 14, 0⟩,
       status := .confirmed, notes := "" }] "a2" "14:30"
    { id := "a1", client_id := "c1", salon_id := "salonX", service_id := "svcS",
      professional_id := none, start_time := ⟨⟨2024, 6, 10⟩, 14, 0⟩,
      status := .confirmed, notes := "" }
    60 rfl (by decide) (by decide) (by decide) rfl
    (by constructor <;> decide)

/-- C7: in the client booking path a duration override (a requested
duration different from the service's nominal one) is recorded as the
free-text note "Duração personalizada: N min"; when the requested
duration equals the nominal one the notes field is the empty string; and
the requested duration influences no field other than notes — two rows
built from the same inputs except the duration agree once notes is
erased.  The final conjunct ties the row to the handler that inserts
it. -/
theorem duration_override_in_notes_only :
    (∀ userId svc d t cd newId, cd ≠ svc.duration →
      (clientBookingRow userId svc d t cd newId).notes = durationNote cd) ∧
    (∀ userId svc d t newId,
      (clientBookingRow userId svc d t svc.duration newId).notes = "") ∧
    (∀ userId svc d t cd1 cd2 newId,
      { clientBookingRow userId svc d t cd1 newId with notes := "" } =
      { clientBookingRow userId svc d t cd2 newId with notes := "" }) ∧
    (∀ userId svc d st ct cd db newId t,
      (if ct = "" then st else some ct) = some t → t ≠ "" →
      clientHandleBooking userId (some svc) d st ct cd db newId =
        .created (clientBookingRow userId svc d t cd newId)
          (db ++ [clientBookingRow userId svc d t cd newId])) := by
  refine ⟨?_, ?_, ?_, ?_⟩
  · intro userId svc d t cd newId h
    simp [clientBookingRow, h]
  · intro userId svc d t newId
    simp [clientBookingRow]
  · intro userId svc d t cd1 cd2 newId
    rfl
  · intro userId svc d st ct cd db newId t hft ht
    simp only [clientHandleBooking]
    rw [hft]
    simp [ht]

/-- C7 witness: requesting 45 minutes on a 30-minute service stores the
note "Duração personalizada: 45 min"; requesting the nominal 30 stores
empty notes. -/
theorem duration_override_in_notes_only_witness :
    (clientBookingRow "c1"
        { id := "svcS", salon_id := "salonX", name := "S", price := 50,
          duration := 30, is_active := true }
        ⟨2024, 6, 10⟩ "14:00" 45 "a1").notes = durationNote 45 ∧
    durationNote 45 = "Duração personalizada: 45 min" ∧
    (clientBookingRow "c1"
        { id := "svcS", salon_id := "salonX", name := "S", price := 50,
          duration := 30, is_active := true }
        ⟨2024, 6, 10⟩ "14:00" 30 "a1").notes = "" :=
  ⟨duration_override_in_notes_only.1 "c1"
      { id := "svcS", salon_id := "salonX", name := "S", price := 50,
        duration := 30, is_active := true }
      ⟨2024, 6, 10⟩ "14:00" 45 "a1" (by decide),
   by decide,
   duration_override_in_notes_only.2.1 "c1"
      { id := "svcS", salon_id := "salonX", name := "S", price := 50,
        duration := 30, is_active := true }
      ⟨2024, 6, 10⟩ "14:00" "a1"⟩

/-- C8 counterexample: submitting with neither a fixed slot nor a custom
time does not produce a MissingTime (or any) error — the handler takes
the bare-`return` path, modelled by `silentReturn`, which carries no
message; no appointment is created but no error is raised either. -/
theorem missing_time_is_silent :
    clientHandleBooking "c1"
      (some { id := "svcS", salon_id := "salonX", name := "S", price := 50,
              duration := 30, is_active := true })
      ⟨2024, 6, 10⟩ none "" 30 [] "a1" = .silentReturn := by
  decide

/-- C8 amended: a submission with neither a fixed candidate time nor a
free-form custom time creates no appointment, but it fails silently:
the handler returns early with no error of any kind (the submit button
is separately disabled in that state; no MissingTime error exists). -/
theorem missing_time_no_create_no_error (userId : String) (svcOpt : Option Service)
    (d : Date) (cd : Nat) (db : List Appointment) (newId : String) :
    clientHandleBooking userId svcOpt d none "" cd db newId = .silentReturn := by
  rcases svcOpt with _ | svc <;> rfl

/-- C10: in the client booking handler the non-empty custom time string
takes precedence over any selected fixed slot — the inserted row's start
time is parsed from the custom time — and the fixed slot is used exactly
when the custom time is the empty string. -/
theorem custom_time_precedence :
    (∀ userId svc d st ct cd db newId, ct ≠ "" →
      clientHandleBooking userId (some svc) d st ct cd db newId =
        .created (clientBookingRow userId svc d ct cd newId)
          (db ++ [clientBookingRow userId svc d ct cd newId])) ∧
    (∀ userId svc d t cd db newId, t ≠ "" →
      clientHandleBooking userId (some svc) d (some t) "" cd db newId =
        .created (clientBookingRow userId svc d t cd newId)
          (db ++ [clientBookingRow userId svc d t cd newId])) := by
  constructor
  · intro userId svc d st ct cd db newId hct
    simp [clientHandleBooking, hct]
  · intro userId svc d t cd db newId ht
    simp [clientHandleBooking, ht]

/-- C10 witness: with the fixed slot 14:00 still selected and the custom
time 15:30 filled in, the booking is created at 15:30. -/
theorem custom_time_precedence_witness :
    clientHandleBooking "c1"
      (some { id := "svcS", salon_id := "salonX", name := "S", price := 50,
              duration := 30, is_active := true })
      ⟨2024, 6, 10⟩ (some "14:00") "15:30" 30 [] "a1" =
      .created
        (clientBookingRow "c1"
          { id := "svcS", salon_id := "salonX", name := "S", price := 50,
            duration := 30, is_active := true }
          ⟨2024, 6, 10⟩ "15:30" 30 "a1")
        [clientBookingRow "c1"
          { id := "svcS", salon_id := "salonX", name := "S", price := 50,
            duration := 30, is_active := true }
          ⟨2024, 6, 10⟩ "15:30" 30 "a1"] :=
  custom_time_precedence.1 "c1"
    { id := "svcS", salon_id := "salonX", name := "S", price := 50,
      duration := 30, is_active := true }
    ⟨2024, 6, 10⟩ (some "14:00") "15:30" 30 [] "a1" (by decide)

/-- Rebinding an id in the notified ledger appends the new kind to that
id's kinds. -/
theorem getNotified_updateNotified_self (st : NotifState) (i k' : String) :
    getNotified (updateNotified st i k') i = getNotified st i ++ [k'] := by
  unfold updateNotified getNotified
  rw [List.find?_cons_of_pos _ (by simp)]
  rfl

/-- Rebinding one id leaves every other id's kinds unchanged. -/
theorem getNotified_updateNotified_other (st : NotifState) (i' k' i : String)
    (h : i' ≠ i) : getNotified (updateNotified st i' k') i = getNotified st i := by
  unfold updateNotified getNotified
  rw [List.find?_cons_of_neg _ (by simp [h])]

/-- Membership in the notified ledger after one update. -/
theorem mem_getNotified_updateNotified (st : NotifState) (i' k' i k : String) :
    k ∈ getNotified (updateNotified st i' k') i ↔
      k ∈ getNotified st i ∨ (i = i' ∧ k = k') := by
  by_cases h : i' = i
  · subst h
    rw [getNotified_updateNotified_self]
    simp
  · rw [getNotified_updateNotified_other st i' k' i h]
    constructor
    · exact Or.inl
    · rintro (hk | ⟨rfl, -⟩)
      · exact hk
      · exact absurd rfl h

/-- Membership in the notified ledger after folding a batch of updates:
exactly the old members plus the batch. -/
theorem mem_getNotified_foldl (l : List Alert) (st : NotifState) (i k : String) :
    k ∈ getNotified (l.foldl (fun s a => updateNotified s a.1 a.2) st) i ↔
      k ∈ getNotified st i ∨ (i, k) ∈ l := by
  induction l generalizing st with
  | nil => simp
  | cons a l ih =>
    rw [List.foldl_cons, ih, mem_getNotified_updateNotified]
    simp only [List.mem_cons, Prod.ext_iff]
    tauto

/-- An alert emitted for one appointment carries that appointment's id
and a kind not yet recorded for it in the run-start ledger. -/
theorem mem_alertsFor {st : NotifState} {now : DateTime} {today : Date}
    {apt : Appointment} {i k : String} (h : (i, k) ∈ alertsFor st now today apt) :
    i = apt.id ∧ k ∉ getNotified st apt.id := by
  unfold alertsFor at h
  rw [List.mem_append] at h
  rcases h with h | h
  · split at h
    next hc =>
      simp only [List.mem_singleton, Prod.mk.injEq] at h
      obtain ⟨rfl, rfl⟩ := h
      exact ⟨rfl, hc.2⟩
    next => simp at h
  · split at h
    next hc =>
      simp only [List.mem_singleton, Prod.mk.injEq] at h
      obtain ⟨rfl, rfl⟩ := h
      exact ⟨rfl, hc.2.2⟩
    next => simp at h

/-- One appointment contributes a given (id, kind) pair at most once
within a run: the two candidate alerts carry distinct kinds. -/
theorem count_alertsFor_le_one (st : NotifState) (now : DateTime) (today : Date)
    (apt : Appointment) (i k : String) :
    ((alertsFor st now today apt).count (i, k)) ≤ 1 := by
  unfold alertsFor
  rw [List.count_append]
  by_cases hk : k = "day"
  · have h2 : ((if diffMinutes apt.start_time now ≤ 30 ∧ 0 < diffMinutes apt.start_time now ∧
        "30min" ∉ getNotified st apt.id then [(apt.id, "30min")] else []).count (i, k)) = 0 := by
      split
      · rw [List.count_eq_zero]
        simp [hk]
      · simp
    have h1 : ((if apt.start_time.date = today ∧ "day" ∉ getNotified st apt.id then
        [(apt.id, "day")] else []).count (i, k)) ≤ 1 := by
      split <;> simp [List.count_cons] <;> split <;> omega
    omega
  · have h1 : ((if apt.start_time.date = today ∧ "day" ∉ getNotified st apt.id then
        [(apt.id, "day")] else []).count (i, k)) = 0 := by
      split
      · rw [List.count_eq_zero]
        simp [hk]
      · simp
    have h2 : ((if diffMinutes apt.start_time now ≤ 30 ∧ 0 < diffMinutes apt.start_time now ∧
        "30min" ∉ getNotified st apt.id then [(apt.id, "30min")] else []).count (i, k)) ≤ 1 := by
      split <;> simp [List.count_cons] <;> split <;> omega
    omega

/-- Within a single run over appointments with pairwise-distinct ids, a
given (id, kind) pair is alerted at most once. -/
theorem count_run_alerts_le_one (st : NotifState) (now : DateTime) (today : Date)
    (appts : List Appointment) (i k : String)
    (h : (appts.map (fun a => a.id)).Nodup) :
    ((appts.flatMap (alertsFor st now today)).count (i, k)) ≤ 1 := by
  induction appts with
  | nil => simp
  | cons a l ih =>
    rw [List.map_cons, List.nodup_cons] at h
    rw [List.flatMap_cons, List.count_append]
    by_cases hi : i = a.id
    · subst hi
      have hzero : ((l.flatMap (alertsFor st now today)).count (a.id, k)) = 0 := by
        rw [List.count_eq_zero]
        intro hmem
        rw [List.mem_flatMap] at hmem
        obtain ⟨b, hb, hab⟩ := hmem
        obtain ⟨heq, -⟩ := mem_alertsFor hab
        exact h.1 (List.mem_map.mpr ⟨b, hb, heq.symm⟩)
      have h1 := count_alertsFor_le_one st now today a a.id k
      omega
    · have h1 : ((alertsFor st now today a).count (i, k)) = 0 := by
        rw [List.count_eq_zero]
        intro hmem
        exact hi (mem_alertsFor hmem).1
      rw [h1]
      simpa using ih h.2

/-- The ledger after one run records exactly the old entries plus every
alert the run emitted. -/
theorem mem_getNotified_once (st : NotifState) (appts : List Appointment)
    (now : DateTime) (today : Date) (i k : String) :
    k ∈ getNotified (checkAppointmentsOnce st appts now today).2 i ↔
      k ∈ getNotified st i ∨ (i, k) ∈ (checkAppointmentsOnce st appts now today).1 := by
  unfold checkAppointmentsOnce
  exact mem_getNotified_foldl _ _ _ _

/-- A run starting from a ledger that already records (id, kind) does not
emit it again. -/
theorem once_count_zero_of_notified (st : NotifState) (appts : List Appointment)
    (now : DateTime) (today : Date) (i k : String) (h : k ∈ getNotified st i) :
    ((checkAppointmentsOnce st appts now today).1.count (i, k)) = 0 := by
  rw [List.count_eq_zero]
  intro hmem
  unfold checkAppointmentsOnce at hmem
  rw [List.mem_flatMap] at hmem
  obtain ⟨b, hb, hab⟩ := hmem
  obtain ⟨heq, hk⟩ := mem_alertsFor hab
  rw [heq] at h
  exact hk h

/-- Within one mount every tick reads the same captured ledger, so the
alert stream of `n` ticks is `n` identical copies of one run's alerts:
each pair is emitted `n` times its per-run count. -/
theorem iter_count_eq_mul (appts : List Appointment) (now : DateTime) (today : Date)
    (st0 : NotifState) (i k : String) :
    ∀ (n : Nat) (acc : NotifState),
      ((checkAppointmentsIter n st0 acc appts now today).1.count (i, k)) =
        n * ((checkAppointmentsOnce st0 appts now today).1.count (i, k)) := by
  intro n
  induction n with
  | zero =>
    intro acc
    simp [checkAppointmentsIter]
  | succ n ih =>
    intro acc
    simp only [checkAppointmentsIter, List.count_append]
    rw [ih]
    ring

/-- C9 counterexample: two interval ticks within one mount.  The second
tick's read comes from the stale closure the effect captured, so the
confirmed same-day appointment "a1" is re-alerted: the pair
("a1", "day") is emitted twice, violating "at most one user-visible
alert for the same (appointment id, kind) pair". -/
theorem stale_interval_duplicates_alerts :
    ((checkAppointmentsIter 2 [] []
        [{ id := "a1", client_id := "u1", salon_id := "s1", service_id := "sv1",
           professional_id := none, start_time := ⟨⟨2024, 6, 10⟩, 14, 0⟩,
           status := .confirmed, notes := "" }]
        ⟨⟨2024, 6, 10⟩, 13, 45⟩ ⟨2024, 6, 10⟩).1.count ("a1", "day")) = 2 := by
  decide

/-- C9 amended: the observer keeps a persisted per-appointment "already
notified" ledger and a single run of the check emits at most one alert
per (appointment id, kind) pair over rows with distinct ids; and a pair
recorded in the ledger the effect captured is never alerted on any tick.
But across ticks within one mount the dedup fails: the interval callback
is a stale closure over the effect-setup-time ledger, so `n` ticks emit
every pair exactly `n` times its per-run count — the same alert repeats
every minute instead of firing at most once. -/
theorem notification_dedup_per_run_only :
    (∀ (st : NotifState) (appts : List Appointment) (now : DateTime) (today : Date)
        (i k : String), ((appts.map (fun a => a.id)).Nodup) →
      ((checkAppointmentsOnce st appts now today).1.count (i, k)) ≤ 1) ∧
    (∀ (n : Nat) (st0 acc : NotifState) (appts : List Appointment) (now : DateTime)
        (today : Date) (i k : String),
      ((checkAppointmentsIter n st0 acc appts now today).1.count (i, k)) =
        n * ((checkAppointmentsOnce st0 appts now today).1.count (i, k))) ∧
    (∀ (n : Nat) (st0 acc : NotifState) (appts : List Appointment) (now : DateTime)
        (today : Date) (i k : String), k ∈ getNotified st0 i →
      ((checkAppointmentsIter n st0 acc appts now today).1.count (i, k)) = 0) := by
  refine ⟨?_, ?_, ?_⟩
  · intro st appts now today i k hnodup
    unfold checkAppointmentsOnce
    exact count_run_alerts_le_one st now today appts i k hnodup
  · intro n st0 acc appts now today i k
    exact iter_count_eq_mul appts now today st0 i k n acc
  · intro n st0 acc appts now today i k hk
    rw [iter_count_eq_mul appts now today st0 i k n acc,
      once_count_zero_of_notified st0 appts now today i k hk]
    simp

/-- C9 amended, witness: one run over the concrete appointment emits
("a1", "day") at most once, and with ("a1", "day") already in the
captured ledger three ticks emit it zero times. -/
theorem notification_dedup_per_run_only_witness :
    ((checkAppointmentsOnce []
        [{ id := "a1", client_id := "u1", salon_id := "s1", service_id := "sv1",
           professional_id := none, start_time := ⟨⟨2024, 6, 10⟩, 14, 0⟩,
           status := .confirmed, notes := "" }]
        ⟨⟨2024, 6, 10⟩, 13, 45⟩ ⟨2024, 6, 10⟩).1.count ("a1", "day")) ≤ 1 ∧
    ((checkAppointmentsIter 3 [("a1", ["day"])] [("a1", ["day"])]
        [{ id := "a1", client_id := "u1", salon_id := "s1", service_id := "sv1",
           professional_id := none, start_time := ⟨⟨2024, 6, 10⟩, 14, 0⟩,
           status := .confirmed, notes := "" }]
        ⟨⟨2024, 6, 10⟩, 13, 45⟩ ⟨2024, 6, 10⟩).1.count ("a1", "day")) = 0 :=
  ⟨notification_dedup_per_run_only.1 []
      [{ id := "a1", client_id := "u1", salon_id := "s1", service_id := "sv1",
         professional_id := none, start_time := ⟨⟨2024, 6, 10⟩, 14, 0⟩,
         status := .confirmed, notes := "" }]
      ⟨⟨2024, 6, 10⟩, 13, 45⟩ ⟨2024, 6, 10⟩ "a1" "day" (by decide),
   notification_dedup_per_run_only.2.2 3 [("a1", ["day"])] [("a1", ["day"])]
      [{ id := "a1", client_id := "u1", salon_id := "s1", service_id := "sv1",
         professional_id := none, start_time := ⟨⟨2024, 6, 10⟩, 14, 0⟩,
         status := .confirmed, notes := "" }]
      ⟨⟨2024, 6, 10⟩, 13, 45⟩ ⟨2024, 6, 10⟩ "a1" "day" (by decide)⟩

end Scheduling
